import Mathlib

/-!
# Phonebook service (`src/models/person.js`, `src/index.js`)

A shallow embedding of the phonebook back end: the `Person` schema with its
validators and `toJSON` transform, the Express route handlers, and the error
handling middleware.

Modelling conventions.

* JavaScript strings are Lean strings; `jsLength` is `String.prototype.length`
  (UTF-16 code units), which is what the `minlength` validator and
  `number.replace('-', '').length` measure.
* A regular expression literal is a value of `Regex`; `Regex.test` is
  `RegExp.prototype.test` for a pattern anchored with `^` and `$`.
* The collection is a list of documents in insertion order.  The handlers are
  functions from the collection and the request to a reply and the new
  collection; `await` is sequential composition, so one handler runs at a time.
  The storage is reachable: a storage call fails only for a reason the model
  holds (a route parameter that is no ObjectId, a failed validator, an insert
  of an `_id` that is already stored).
* The fields `name` and `number` of a request body are strings or absent.
* A handler either sends a response or passes an error to `next`; `respond`
  pipes the latter through the error handling middleware.
-/

namespace Phonebook

/-! ## Strings -/

/-- Number of UTF-16 code units of one character. -/
def utf16Units (c : Char) : Nat :=
  if c.toNat < 0x10000 then 1 else 2

/-- The `length` property of a JavaScript string, on its list of characters. -/
def jsLengthChars : List Char → Nat
  | [] => 0
  | c :: cs => utf16Units c + jsLengthChars cs

/-- The `length` property of a JavaScript string. -/
def jsLength (s : String) : Nat :=
  jsLengthChars s.toList

/-- Call `s.replace(pat, rep)` where `pat` is a one-character string: only the
first occurrence is replaced. -/
def replaceFirst (pat : Char) (rep : List Char) : List Char → List Char
  | [] => []
  | c :: cs => if c = pat then rep ++ cs else c :: replaceFirst pat rep cs

/-! ## Regular expressions -/

/-- Regular expression syntax: character classes, the empty pattern,
concatenation, alternation, Kleene star and the pattern that never matches. -/
inductive Regex where
  | cls (p : Char → Bool)
  | eps
  | seq (r s : Regex)
  | alt (r s : Regex)
  | star (r : Regex)
  | fail

namespace Regex

/-- The class escape `\d`: the ASCII digits `0`-`9`. -/
def digit : Regex := cls Char.isDigit

/-- A literal pattern character. -/
def lit (c : Char) : Regex := cls (fun x => x == c)

/-- The quantifier `r?`. -/
def opt (r : Regex) : Regex := alt r eps

/-- The quantifier `r+`. -/
def plus (r : Regex) : Regex := seq r (star r)

/-- The quantifier `r{n}`. -/
def times (r : Regex) : Nat → Regex
  | 0 => eps
  | n + 1 => seq r (times r n)

/-- Up to `k` copies of `r`. -/
def upTo (r : Regex) : Nat → Regex
  | 0 => eps
  | k + 1 => seq (opt r) (upTo r k)

/-- The quantifier `r{lo,hi}`: `lo` copies, then up to `hi - lo` more. -/
def range (r : Regex) (lo hi : Nat) : Regex :=
  seq (times r lo) (upTo r (hi - lo))

/-- Whether the pattern matches the empty string. -/
def nullable : Regex → Bool
  | cls _ => false
  | eps => true
  | seq r s => nullable r && nullable s
  | alt r s => nullable r || nullable s
  | star _ => true
  | fail => false

/-- The pattern matching what is left of a match of `r` after reading `c`. -/
def deriv (c : Char) : Regex → Regex
  | cls p => if p c then eps else fail
  | eps => fail
  | seq r s => if nullable r then alt (seq (deriv c r) s) (deriv c s) else seq (deriv c r) s
  | alt r s => alt (deriv c r) (deriv c s)
  | star r => seq (deriv c r) (star r)
  | fail => fail

/-- Whether the whole input matches the pattern, as `/^r$/.test(input)`. -/
def test (r : Regex) : List Char → Bool
  | [] => nullable r
  | c :: cs => test (deriv c r) cs

/-- The usual meaning of a pattern: the strings it matches in full. -/
inductive Matches : Regex → List Char → Prop
  | cls {p : Char → Bool} {c : Char} : p c = true → Matches (cls p) [c]
  | eps : Matches eps []
  | seq {r s : Regex} {u v : List Char} :
      Matches r u → Matches s v → Matches (seq r s) (u ++ v)
  | altL {r s : Regex} {u : List Char} : Matches r u → Matches (alt r s) u
  | altR {r s : Regex} {u : List Char} : Matches s u → Matches (alt r s) u
  | starNil {r : Regex} : Matches (star r) []
  | starCons {r : Regex} {u v : List Char} :
      Matches r u → Matches (star r) v → Matches (star r) (u ++ v)

end Regex

/-! ## The `Person` schema (`src/models/person.js`) -/

/-- The pattern `/^\d{2,3}-\d+$/` of the phone number validator. -/
def phoneRegex : Regex :=
  .seq (.range .digit 2 3) (.seq (.lit '-') (.plus .digit))

/-- The function `phoneValidator.validator`.  The length compared with 8 is
that of the string without its first hyphen, as the code computes it. -/
def phoneValidator (number : String) : Bool :=
  phoneRegex.test number.toList &&
    decide (8 ≤ jsLengthChars (replaceFirst '-' [] number.toList))

/-- The format in words: two or three decimal digits, one hyphen, one or more
decimal digits. -/
def SpecPhoneFormat (s : String) : Prop :=
  ∃ lead tail : List Char,
    s.toList = lead ++ '-' :: tail ∧
    (lead.length = 2 ∨ lead.length = 3) ∧
    (∀ c ∈ lead, c.isDigit = true) ∧
    tail ≠ [] ∧ (∀ c ∈ tail, c.isDigit = true)

/-- The number of decimal digits in a string. -/
def digitCount (s : String) : Nat :=
  s.toList.countP Char.isDigit

/-- The `required` validator of a string path: the value is a non-empty string. -/
def checkRequired (value : String) : Bool :=
  decide (jsLength value ≠ 0)

/-- The validators of the path `name`, in order; the result is the message of
the first one that fails. -/
def validateName (name : String) : Option String :=
  if checkRequired name = false then some "Name is required"
  else if jsLength name < 3 then some "Name must be at least 3 characters long"
  else none

/-- The template `phoneValidator.message`. -/
def phoneMessage (value : String) : String :=
  value ++ " is not a valid phone number! Format: XX-XXXXXXX or XXX-XXXXXXX"

/-- The validators of the path `number`, in order; the result is the message of
the first one that fails. -/
def validateNumber (number : String) : Option String :=
  if checkRequired number = false then some "Number is required"
  else if phoneValidator number = false then some (phoneMessage number)
  else none

/-- The failed paths of a candidate `{ name, number }`, each with its message,
in schema order. -/
def validationErrors (name number : String) : List (String × String) :=
  (match validateName name with
    | some m => [("name", m)]
    | none => []) ++
  (match validateNumber number with
    | some m => [("number", m)]
    | none => [])

/-- The failed paths of an update `{ name, number }` under `runValidators`, each
with its message: the update validators report `number` before `name`. -/
def updateValidationErrors (name number : String) : List (String × String) :=
  (match validateNumber number with
    | some m => [("number", m)]
    | none => []) ++
  (match validateName name with
    | some m => [("name", m)]
    | none => [])

/-! ## Values, documents and the collection -/

/-- A storage identifier (ObjectId): twelve bytes, kept as the 24 hexadecimal
digits of its string form. -/
structure ObjectId where
  digits : List (Fin 16)
  size : digits.length = 24
deriving DecidableEq

/-- The lowercase hexadecimal digit of a value below sixteen. -/
def hexDigit (d : Fin 16) : Char :=
  if d.val < 10 then Char.ofNat (48 + d.val) else Char.ofNat (87 + d.val)

/-- The method `toString` of an ObjectId: its 24 lowercase hexadecimal digits. -/
def ObjectId.toHexString (o : ObjectId) : String :=
  String.mk (o.digits.map hexDigit)

/-- The identifier whose 24 hexadecimal digits are those of `n`. -/
def ObjectId.ofNat (n : Nat) : ObjectId :=
  ⟨(List.range 24).map (fun i => Fin.ofNat (n / 16 ^ (23 - i))), by simp⟩

/-- The value of a hexadecimal digit, in either case. -/
def unhex (c : Char) : Option (Fin 16) :=
  if 48 ≤ c.toNat ∧ c.toNat ≤ 57 then some (Fin.ofNat (c.toNat - 48))
  else if 97 ≤ c.toNat ∧ c.toNat ≤ 102 then some (Fin.ofNat (c.toNat - 87))
  else if 65 ≤ c.toNat ∧ c.toNat ≤ 70 then some (Fin.ofNat (c.toNat - 55))
  else none

/-- The values of a string of hexadecimal digits. -/
def unhexAll : List Char → Option (List (Fin 16))
  | [] => some []
  | c :: cs =>
    match unhex c, unhexAll cs with
    | some d, some ds => some (d :: ds)
    | _, _ => none

/-- The non-negative integers a Number holds exactly: those below `2 ^ 53`. -/
abbrev SafeInt := Fin 9007199254740992

/-- The values a document field or a response field can hold: strings,
non-negative safe integers and ObjectIds. -/
inductive JSValue where
  | str (s : String)
  | num (n : SafeInt)
  | oid (o : ObjectId)
deriving DecidableEq

/-- The method `toString` of a value; a safe integer prints in plain decimal. -/
def JSValue.toString : JSValue → String
  | .str s => s
  | .num n => Nat.repr n.val
  | .oid o => o.toHexString

/-- A plain object: its own properties with their values. -/
abbrev JSObject := List (String × JSValue)

/-- Property read `o[k]`; `none` is `undefined`. -/
def JSObject.get (o : JSObject) (k : String) : Option JSValue :=
  List.lookup k o

/-- Property assignment `o[k] = v`. -/
def JSObject.set : JSObject → String → JSValue → JSObject
  | [], k, v => [(k, v)]
  | (k', v') :: rest, k, v =>
    if k' = k then (k, v) :: rest else (k', v') :: JSObject.set rest k v

/-- Property removal `delete o[k]`. -/
def JSObject.delete (o : JSObject) (k : String) : JSObject :=
  o.filter (fun kv => kv.1 ≠ k)

/-- A stored `Person` document. -/
structure PersonDoc where
  _id : ObjectId
  name : String
  number : String
  __v : SafeInt
deriving DecidableEq

/-- The plain object of a document, as handed to the `toJSON` transform. -/
def PersonDoc.toObject (doc : PersonDoc) : JSObject :=
  [("_id", .oid doc._id), ("name", .str doc.name), ("number", .str doc.number),
    ("__v", .num doc.__v)]

/-- The `transform` of `personSchema.set('toJSON', ...)`.  The result is `none`
when `returnedObject._id` is `undefined`, where the call of `toString` throws. -/
def toJSONTransform (returnedObject : JSObject) : Option JSObject :=
  match returnedObject.get "_id" with
  | none => none
  | some _id =>
    let returnedObject := returnedObject.set "id" (.str _id.toString)
    let returnedObject := returnedObject.delete "_id"
    some (returnedObject.delete "__v")

/-- The wire form of a document: the transform applied to its plain object. -/
def PersonDoc.toJSON (doc : PersonDoc) : Option JSObject :=
  toJSONTransform doc.toObject

/-- The collection of `Person` documents, in insertion order. -/
abbrev Store := List PersonDoc

/-- The rule of the schema that a stored name has at least 3 characters. -/
abbrev ValidNames (store : Store) : Prop :=
  ∀ d ∈ store, 3 ≤ jsLength d.name

/-- The storage invariant that `_id` is unique in the collection. -/
abbrev UniqueIds (store : Store) : Prop :=
  (store.map (fun d => d._id)).Nodup

/-- The no-duplicate-names invariant I1. -/
abbrev UniqueNames (store : Store) : Prop :=
  (store.map (fun d => d.name)).Nodup

/-- The query `Person.findById(oid)`. -/
def findById (store : Store) (oid : ObjectId) : Option PersonDoc :=
  store.find? (fun d => d._id = oid)

/-- The query `Person.findOne({ name })`. -/
def findOneByName (store : Store) (name : String) : Option PersonDoc :=
  store.find? (fun d => d.name = name)

/-- The write of `findByIdAndUpdate(oid, { name, number })`: the first document
with that `_id` gets the two fields replaced. -/
def updateById (oid : ObjectId) (name number : String) : Store → Store
  | [] => []
  | d :: ds =>
    if d._id = oid then { d with name := name, number := number } :: ds
    else d :: updateById oid name number ds

/-- The write of `findByIdAndDelete(oid)`: the first document with that `_id`
is removed. -/
def deleteById (oid : ObjectId) : Store → Store
  | [] => []
  | d :: ds => if d._id = oid then ds else d :: deleteById oid ds

/-- The part of the database driver the handlers depend on: the cast of a route
parameter to an ObjectId (`none` when the cast throws), which accepts at least
the string form of every ObjectId. -/
structure Driver where
  castObjectId : String → Option ObjectId
  cast_toHexString : ∀ o : ObjectId, castObjectId o.toHexString = some o

/-! ## Errors and responses -/

/-- The fields of a thrown error that the application reads. -/
structure JSError where
  name : String
  kind : Option String
  message : String
deriving DecidableEq

/-- The body of a response. -/
inductive Body where
  | empty
  | json (o : JSObject)
deriving DecidableEq

/-- An HTTP response: status code and body. -/
structure Response where
  status : Nat
  body : Body
deriving DecidableEq

/-- What a handler does with the request: it sends a response or calls
`next(err)`. -/
inductive Reply where
  | sent (res : Response)
  | next (err : JSError)
deriving DecidableEq

/-- The object `{ error: message }`. -/
def errorBody (message : String) : Body :=
  .json [("error", .str message)]

/-- The error thrown when a route parameter is not an ObjectId. -/
def castError (value : String) : JSError :=
  { name := "CastError", kind := some "ObjectId",
    message := "Cast to ObjectId failed for value \"" ++ value ++
      "\" (type string) at path \"_id\" for model \"Person\"" }

/-- The error thrown when validators fail: its message lists the failed paths. -/
def validationError (title : String) (errs : List (String × String)) : JSError :=
  { name := "ValidationError", kind := none,
    message := title ++ ": " ++
      ", ".intercalate (errs.map (fun e => e.1 ++ ": " ++ e.2)) }

/-- The error thrown by an insert whose `_id` is already in the collection. -/
def duplicateKeyError (oid : ObjectId) : JSError :=
  { name := "MongoServerError", kind := none,
    message := "E11000 duplicate key error index: _id_ dup key: " ++ oid.toHexString }

/-- The error thrown when `toString` is called on `undefined`. -/
def typeError : JSError :=
  { name := "TypeError", kind := none,
    message := "Cannot read properties of undefined (reading 'toString')" }

/-- The call `res.status(status).json(doc)` inside a `try` block: the document
is rendered through `toJSON`; an exception of the transform goes to `next`. -/
def jsonReply (status : Nat) (doc : PersonDoc) : Reply :=
  match doc.toJSON with
  | some o => .sent ⟨status, .json o⟩
  | none => .next typeError

/-! ## The routes (`src/index.js`) -/

/-- Handler of `GET /api/persons/:id`. -/
def getPerson (D : Driver) (store : Store) (id : String) : Reply × Store :=
  match D.castObjectId id with
  | none => (.next (castError id), store)
  | some oid =>
    match findById store oid with
    | none => (.sent ⟨404, errorBody "Person not found"⟩, store)
    | some person => (jsonReply 200 person, store)

/-- Handler of `POST /api/persons`.  The fields `name` and `number` of the
request body are strings or `undefined`, and `!name` holds of `undefined` and
of the empty string; `fresh` is the `_id` generated for the new document, and
`save()` validates the document before it inserts it. -/
def postPerson (store : Store) (name number : Option String) (fresh : ObjectId) :
    Reply × Store :=
  match name, number with
  | some name, some number =>
    if name = "" ∨ number = "" then
      (.sent ⟨400, errorBody "Name and number are required"⟩, store)
    else
      match findOneByName store name with
      | some _ => (.sent ⟨409, errorBody "Name already exists"⟩, store)
      | none =>
        let errs := validationErrors name number
        if errs ≠ [] then
          (.next (validationError "Person validation failed" errs), store)
        else if store.any (fun d => d._id = fresh) then
          (.next (duplicateKeyError fresh), store)
        else
          let savedPerson : PersonDoc :=
            { _id := fresh, name := name, number := number, __v := 0 }
          (jsonReply 201 savedPerson, store ++ [savedPerson])
  | _, _ => (.sent ⟨400, errorBody "Name and number are required"⟩, store)

/-- Handler of `PUT /api/persons/:id`.  The call of `findByIdAndUpdate` casts
the identifier, runs the validators of the updated paths (`runValidators: true`)
and then updates the document, which it returns as updated (`new: true`). -/
def putPerson (D : Driver) (store : Store) (id : String) (name number : Option String) :
    Reply × Store :=
  match name, number with
  | some name, some number =>
    if name = "" ∨ number = "" then
      (.sent ⟨400, errorBody "Name and number are required"⟩, store)
    else
      match D.castObjectId id with
      | none => (.next (castError id), store)
      | some oid =>
        let errs := updateValidationErrors name number
        if errs ≠ [] then
          (.next (validationError "Validation failed" errs), store)
        else
          match findById store oid with
          | none => (.sent ⟨404, errorBody "Person not found"⟩, store)
          | some person =>
            let updatedPerson : PersonDoc :=
              { person with name := name, number := number }
            (jsonReply 200 updatedPerson, updateById oid name number store)
  | _, _ => (.sent ⟨400, errorBody "Name and number are required"⟩, store)

/-- Handler of `DELETE /api/persons/:id`. -/
def deletePerson (D : Driver) (store : Store) (id : String) : Reply × Store :=
  match D.castObjectId id with
  | none => (.next (castError id), store)
  | some oid =>
    match findById store oid with
    | none => (.sent ⟨404, errorBody "Person not found"⟩, store)
    | some _ => (.sent ⟨204, .empty⟩, deleteById oid store)

/-- The error handling middleware. -/
def errorHandler (err : JSError) : Response :=
  if err.name = "CastError" ∧ err.kind = some "ObjectId" then
    ⟨400, errorBody "Malformatted ID"⟩
  else if err.name = "ValidationError" then
    ⟨400, errorBody err.message⟩
  else
    ⟨500, errorBody "Server error"⟩

/-- The response the client receives: the one the handler sent, or the one the
error handling middleware makes of the error passed to `next`. -/
def respond : Reply → Response
  | .sent res => res
  | .next err => errorHandler err

/-- A driver whose cast accepts exactly the strings of 24 hexadecimal digits. -/
def hexDriver : Driver where
  castObjectId := fun s =>
    match unhexAll s.toList with
    | some ds => if h : ds.length = 24 then some ⟨ds, h⟩ else none
    | none => none
  cast_toHexString := by
    intro o
    have hd : ∀ d : Fin 16, unhex (hexDigit d) = some d := by decide
    have hall : ∀ l : List (Fin 16), unhexAll (l.map hexDigit) = some l := by
      intro l
      induction l with
      | nil => rfl
      | cons a t ih => simp [unhexAll, hd, ih]
    simp [ObjectId.toHexString, hall, o.size]

/-! ## Example data -/

/-- A stored record named Alice. -/
def alice : PersonDoc :=
  { _id := ObjectId.ofNat 1, name := "Alice", number := "12-345678", __v := 0 }

/-- A stored record named Bobby. -/
def bobby : PersonDoc :=
  { _id := ObjectId.ofNat 2, name := "Bobby", number := "040-1234567", __v := 0 }

/-! ## Regular expression matching is correct -/

namespace Regex

theorem matches_cls_iff {p : Char → Bool} {w : List Char} :
    Matches (cls p) w ↔ ∃ c, w = [c] ∧ p c = true := by
  constructor
  · intro h
    cases h with
    | cls hc => exact ⟨_, rfl, hc⟩
  · rintro ⟨c, rfl, hc⟩
    exact Matches.cls hc

theorem matches_eps_iff {w : List Char} : Matches eps w ↔ w = [] := by
  constructor
  · intro h
    cases h
    rfl
  · rintro rfl
    exact Matches.eps

theorem matches_fail_iff {w : List Char} : Matches fail w ↔ False := by
  constructor
  · intro h
    cases h
  · intro h
    exact h.elim

theorem matches_seq_iff {r s : Regex} {w : List Char} :
    Matches (seq r s) w ↔ ∃ u v, w = u ++ v ∧ Matches r u ∧ Matches s v := by
  constructor
  · intro h
    cases h with
    | seq h1 h2 => exact ⟨_, _, rfl, h1, h2⟩
  · rintro ⟨u, v, rfl, h1, h2⟩
    exact Matches.seq h1 h2

theorem matches_alt_iff {r s : Regex} {w : List Char} :
    Matches (alt r s) w ↔ Matches r w ∨ Matches s w := by
  constructor
  · intro h
    cases h with
    | altL h1 => exact Or.inl h1
    | altR h2 => exact Or.inr h2
  · rintro (h | h)
    · exact Matches.altL h
    · exact Matches.altR h

theorem nullable_iff (r : Regex) : nullable r = true ↔ Matches r [] := by
  induction r with
  | cls p => simp [nullable, matches_cls_iff]
  | eps => simp [nullable, matches_eps_iff]
  | seq r s ihr ihs =>
    simp only [nullable, Bool.and_eq_true, ihr, ihs, matches_seq_iff]
    constructor
    · rintro ⟨h1, h2⟩
      exact ⟨[], [], rfl, h1, h2⟩
    · rintro ⟨u, v, huv, h1, h2⟩
      have hu : u = [] := by
        cases u with
        | nil => rfl
        | cons a t => simp at huv
      have hv : v = [] := by
        cases v with
        | nil => rfl
        | cons a t => simp at huv
      subst hu
      subst hv
      exact ⟨h1, h2⟩
  | alt r s ihr ihs => simp [nullable, ihr, ihs, matches_alt_iff]
  | star r _ => simp [nullable, Matches.starNil]
  | fail => simp [nullable, matches_fail_iff]

/-- A non-empty match of `r*` starts with a non-empty match of `r`. -/
theorem matches_star_cons {r : Regex} {c : Char} {w : List Char}
    (h : Matches (star r) (c :: w)) :
    ∃ u v, w = u ++ v ∧ Matches r (c :: u) ∧ Matches (star r) v := by
  generalize hq : star r = q at h
  generalize hx : c :: w = x at h
  induction h with
  | cls _ => cases hq
  | eps => cases hq
  | seq _ _ _ _ => cases hq
  | altL _ _ => cases hq
  | altR _ _ => cases hq
  | starNil => cases hx
  | @starCons r1 u v h1 h2 _ ih2 =>
    cases hq
    cases u with
    | nil => exact ih2 rfl (by simpa using hx)
    | cons a t =>
      simp only [List.cons_append, List.cons.injEq] at hx
      obtain ⟨rfl, rfl⟩ := hx
      exact ⟨t, v, rfl, h1, h2⟩

theorem deriv_iff (r : Regex) (c : Char) (w : List Char) :
    Matches (deriv c r) w ↔ Matches r (c :: w) := by
  induction r generalizing w with
  | cls p =>
    rw [matches_cls_iff]
    by_cases hp : p c = true
    · simp only [deriv, hp, if_true, matches_eps_iff]
      constructor
      · rintro rfl
        exact ⟨c, rfl, hp⟩
      · rintro ⟨x, hx, _⟩
        simp only [List.cons.injEq] at hx
        exact hx.2
    · simp only [deriv, hp]
      rw [if_neg (by simp), matches_fail_iff, false_iff]
      rintro ⟨x, hx, hpx⟩
      simp only [List.cons.injEq] at hx
      obtain ⟨rfl, _⟩ := hx
      exact hp hpx
  | eps => simp [deriv, matches_fail_iff, matches_eps_iff]
  | seq r s ihr ihs =>
    have key : Matches (seq r s) (c :: w) ↔
        (Matches (seq (deriv c r) s) w ∨ (nullable r = true ∧ Matches (deriv c s) w)) := by
      rw [matches_seq_iff, matches_seq_iff, ihs, nullable_iff]
      constructor
      · rintro ⟨u, v, huv, h1, h2⟩
        cases u with
        | nil =>
          simp only [List.nil_append] at huv
          subst huv
          exact Or.inr ⟨h1, h2⟩
        | cons a t =>
          simp only [List.cons_append, List.cons.injEq] at huv
          obtain ⟨rfl, rfl⟩ := huv
          exact Or.inl ⟨t, v, rfl, (ihr t).2 h1, h2⟩
      · rintro (⟨u, v, rfl, h1, h2⟩ | ⟨h1, h2⟩)
        · exact ⟨c :: u, v, rfl, (ihr u).1 h1, h2⟩
        · exact ⟨[], c :: w, rfl, h1, h2⟩
    rw [key]
    by_cases hn : nullable r = true
    · simp [deriv, hn, matches_alt_iff]
    · simp [deriv, hn]
  | alt r s ihr ihs => simp [deriv, matches_alt_iff, ihr, ihs]
  | star r ih =>
    simp only [deriv, matches_seq_iff]
    constructor
    · rintro ⟨u, v, rfl, h1, h2⟩
      exact Matches.starCons (u := c :: u) ((ih u).1 h1) h2
    · intro h
      obtain ⟨u, v, rfl, h1, h2⟩ := matches_star_cons h
      exact ⟨u, v, rfl, (ih u).2 h1, h2⟩
  | fail => simp [deriv, matches_fail_iff]

/-- The derivative matcher decides the meaning of the pattern. -/
theorem test_iff (r : Regex) (w : List Char) : test r w = true ↔ Matches r w := by
  induction w generalizing r with
  | nil => simpa [test] using nullable_iff r
  | cons c cs ih => rw [test, ih, deriv_iff]

theorem matches_star_cls_iff (p : Char → Bool) (w : List Char) :
    Matches (star (cls p)) w ↔ ∀ c ∈ w, p c = true := by
  induction w with
  | nil => simp [Matches.starNil]
  | cons a t ih =>
    constructor
    · intro h
      obtain ⟨u, v, rfl, h1, h2⟩ := matches_star_cons h
      obtain ⟨x, hx, hpx⟩ := matches_cls_iff.1 h1
      simp only [List.cons.injEq] at hx
      obtain ⟨rfl, rfl⟩ := hx
      intro c hc
      rcases List.mem_cons.1 hc with rfl | hc
      · exact hpx
      · exact ih.1 (by simpa using h2) c hc
    · intro h
      have h1 : Matches (cls p) [a] := Matches.cls (h a (List.mem_cons_self a t))
      have h2 : Matches (star (cls p)) t :=
        ih.2 (fun c hc => h c (List.mem_cons_of_mem a hc))
      exact Matches.starCons h1 h2

theorem matches_times_cls_iff (p : Char → Bool) (n : Nat) (w : List Char) :
    Matches (times (cls p) n) w ↔ w.length = n ∧ ∀ c ∈ w, p c = true := by
  induction n generalizing w with
  | zero =>
    simp only [times, matches_eps_iff]
    constructor
    · rintro rfl
      simp
    · rintro ⟨h, _⟩
      exact List.length_eq_zero.1 h
  | succ n ih =>
    simp only [times, matches_seq_iff, matches_cls_iff]
    constructor
    · rintro ⟨u, v, rfl, ⟨c, rfl, hc⟩, hv⟩
      obtain ⟨hl, hall⟩ := (ih v).1 hv
      refine ⟨by simp [hl], ?_⟩
      intro x hx
      rcases List.mem_cons.1 hx with rfl | hx
      · exact hc
      · exact hall x hx
    · rintro ⟨hl, hall⟩
      cases w with
      | nil => simp at hl
      | cons a t =>
        refine ⟨[a], t, rfl, ⟨a, rfl, hall a (List.mem_cons_self a t)⟩, (ih t).2 ⟨?_, ?_⟩⟩
        · simpa using hl
        · exact fun c hc => hall c (List.mem_cons_of_mem a hc)

end Regex

/-! ## The phone number validator -/

theorem matches_lead_iff (w : List Char) :
    Regex.Matches (.range .digit 2 3) w ↔
      (w.length = 2 ∨ w.length = 3) ∧ ∀ c ∈ w, c.isDigit = true := by
  have hopt : ∀ v : List Char, Regex.Matches (.upTo (.cls Char.isDigit) 1) v ↔
      ((∃ c, v = [c] ∧ c.isDigit = true) ∨ v = []) := by
    intro v
    simp only [Regex.upTo, Regex.opt, Regex.matches_seq_iff, Regex.matches_alt_iff,
      Regex.matches_eps_iff, Regex.matches_cls_iff]
    constructor
    · rintro ⟨a, b, rfl, (⟨c, rfl, hc⟩ | rfl), rfl⟩
      · exact Or.inl ⟨c, rfl, hc⟩
      · exact Or.inr rfl
    · rintro (⟨c, rfl, hc⟩ | rfl)
      · exact ⟨[c], [], rfl, Or.inl ⟨c, rfl, hc⟩, rfl⟩
      · exact ⟨[], [], rfl, Or.inr rfl, rfl⟩
  have h1 : 3 - 2 = 1 := rfl
  simp only [Regex.range, Regex.digit, Regex.matches_seq_iff, h1, hopt,
    Regex.matches_times_cls_iff]
  constructor
  · rintro ⟨u, v, rfl, ⟨hl, hall⟩, (⟨c, rfl, hc⟩ | rfl)⟩
    · refine ⟨Or.inr (by simp [hl]), ?_⟩
      intro x hx
      rcases List.mem_append.1 hx with hx | hx
      · exact hall x hx
      · rw [List.mem_singleton.1 hx]
        exact hc
    · exact ⟨Or.inl (by simp [hl]), by simpa using hall⟩
  · rintro ⟨hl | hl, hall⟩
    · exact ⟨w, [], by simp, ⟨hl, hall⟩, Or.inr rfl⟩
    · match w, hl, hall with
      | [a, b, c], _, hall =>
        refine ⟨[a, b], [c], rfl, ⟨rfl, ?_⟩, Or.inl ⟨c, rfl, hall c (by simp)⟩⟩
        intro x hx
        exact hall x (by
          rcases List.mem_cons.1 hx with rfl | hx
          · simp
          · rw [List.mem_singleton.1 hx]
            simp)

theorem matches_tail_iff (w : List Char) :
    Regex.Matches (.plus .digit) w ↔ w ≠ [] ∧ ∀ c ∈ w, c.isDigit = true := by
  simp only [Regex.plus, Regex.digit, Regex.matches_seq_iff, Regex.matches_cls_iff,
    Regex.matches_star_cls_iff]
  constructor
  · rintro ⟨u, v, rfl, ⟨c, rfl, hc⟩, hv⟩
    refine ⟨by simp, ?_⟩
    intro x hx
    rcases List.mem_cons.1 hx with rfl | hx
    · exact hc
    · exact hv x hx
  · rintro ⟨hne, hall⟩
    cases w with
    | nil => exact (hne rfl).elim
    | cons a t =>
      exact ⟨[a], t, rfl, ⟨a, rfl, hall a (List.mem_cons_self a t)⟩,
        fun c hc => hall c (List.mem_cons_of_mem a hc)⟩

/-- The pattern of the validator matches exactly the strings of the format. -/
theorem phoneRegex_test_iff (s : String) :
    phoneRegex.test s.toList = true ↔ SpecPhoneFormat s := by
  rw [Regex.test_iff]
  simp only [phoneRegex, SpecPhoneFormat, Regex.matches_seq_iff, matches_lead_iff,
    matches_tail_iff, Regex.lit, Regex.matches_cls_iff]
  constructor
  · rintro ⟨lead, rest, hs, ⟨hl, hd⟩, u, tail, rfl, ⟨c, rfl, hc⟩, hne, ht⟩
    have hc' : c = '-' := by simpa using hc
    subst hc'
    exact ⟨lead, tail, by simpa using hs, hl, hd, hne, ht⟩
  · rintro ⟨lead, tail, hs, hl, hd, hne, ht⟩
    exact ⟨lead, '-' :: tail, hs, ⟨hl, hd⟩, ['-'], tail, rfl, ⟨'-', rfl, by simp⟩, hne, ht⟩

theorem replaceFirst_digits (lead tail : List Char)
    (hd : ∀ c ∈ lead, c.isDigit = true) :
    replaceFirst '-' [] (lead ++ '-' :: tail) = lead ++ tail := by
  induction lead with
  | nil => simp [replaceFirst]
  | cons a t ih =>
    have ha : a ≠ '-' := by
      intro h
      have := hd a (List.mem_cons_self a t)
      rw [h] at this
      exact absurd this (by decide)
    simp only [List.cons_append, replaceFirst, if_neg ha, List.cons.injEq, true_and]
    exact ih (fun c hc => hd c (List.mem_cons_of_mem a hc))

theorem utf16Units_digit (c : Char) (h : c.isDigit = true) : utf16Units c = 1 := by
  have hle : c.val ≤ 57 := by
    simp only [Char.isDigit, Bool.and_eq_true, decide_eq_true_eq] at h
    exact h.2
  have hn : c.toNat ≤ 57 := hle
  simp only [utf16Units]
  rw [if_pos (by omega)]

theorem jsLengthChars_digits (w : List Char) (hd : ∀ c ∈ w, c.isDigit = true) :
    jsLengthChars w = w.length := by
  induction w with
  | nil => rfl
  | cons a t ih =>
    simp only [jsLengthChars, List.length_cons,
      utf16Units_digit a (hd a (List.mem_cons_self a t)),
      ih (fun c hc => hd c (List.mem_cons_of_mem a hc))]
    omega

theorem countP_digits (w : List Char) (hd : ∀ c ∈ w, c.isDigit = true) :
    w.countP Char.isDigit = w.length :=
  List.countP_eq_length.2 hd

/-- For a string of the format, the length measured by the validator is the
number of digits of the string. -/
theorem replaced_length_eq_digitCount (s : String) (h : SpecPhoneFormat s) :
    jsLengthChars (replaceFirst '-' [] s.toList) = digitCount s := by
  obtain ⟨lead, tail, hs, _, hd, _, ht⟩ := h
  have hall : ∀ c ∈ lead ++ tail, c.isDigit = true := by
    intro c hc
    rcases List.mem_append.1 hc with hc | hc
    · exact hd c hc
    · exact ht c hc
  have hcount : (lead ++ '-' :: tail).countP Char.isDigit = lead.length + tail.length := by
    rw [List.countP_append, List.countP_cons, countP_digits lead hd, countP_digits tail ht]
    simp
  rw [digitCount, hs, replaceFirst_digits lead tail hd, jsLengthChars_digits _ hall, hcount]
  simp

/-- C1: the phone number validator accepts a string exactly when it is two or
three decimal digits, one hyphen and one or more decimal digits, with at least
eight digits in all; the three sample numbers of the claim are accepted and the
four others rejected. -/
theorem phoneValidator_accepts_iff :
    (∀ s : String, phoneValidator s = true ↔ (SpecPhoneFormat s ∧ 8 ≤ digitCount s)) ∧
    phoneValidator "09-1234567" = true ∧
    phoneValidator "123-45678" = true ∧
    phoneValidator "12-345678" = true ∧
    phoneValidator "12-34567" = false ∧
    phoneValidator "123-4567" = false ∧
    phoneValidator "12-3456" = false ∧
    phoneValidator "091234567" = false := by
  refine ⟨?_, by decide, by decide, by decide, by decide, by decide, by decide, by decide⟩
  intro s
  simp only [phoneValidator, Bool.and_eq_true, decide_eq_true_eq, phoneRegex_test_iff]
  constructor
  · rintro ⟨hf, hl⟩
    exact ⟨hf, by rw [← replaced_length_eq_digitCount s hf]; exact hl⟩
  · rintro ⟨hf, hl⟩
    exact ⟨hf, by rw [replaced_length_eq_digitCount s hf]; exact hl⟩

/-! ## The wire form -/

theorem toJSON_eq (doc : PersonDoc) :
    doc.toJSON = some [("name", .str doc.name), ("number", .str doc.number),
      ("id", .str doc._id.toHexString)] := by
  rfl

/-- C8: the wire form of a stored record has an `id` that is the string form of
the record's `_id`, has no `_id` and no `__v`, and has the record's `name` and
`number`. -/
theorem toJSON_wire_form (doc : PersonDoc) :
    ∃ o : JSObject, doc.toJSON = some o ∧
      o.get "id" = some (.str doc._id.toHexString) ∧
      o.get "_id" = none ∧ o.get "__v" = none ∧
      o.get "name" = some (.str doc.name) ∧
      o.get "number" = some (.str doc.number) := by
  refine ⟨_, toJSON_eq doc, ?_, ?_, ?_, ?_, ?_⟩ <;> rfl

/-! ## The error handling middleware -/

/-- C10, as the code has it: two validation errors with different message
texts get different response bodies, each carrying the error's own message. -/
theorem errorHandler_sends_validation_message :
    (validationError "Person validation failed" (validationErrors "Al" "12-345678")).name =
      (validationError "Person validation failed" (validationErrors "Alice" "12-3456")).name ∧
    (validationError "Person validation failed" (validationErrors "Al" "12-345678")).kind =
      (validationError "Person validation failed" (validationErrors "Alice" "12-3456")).kind ∧
    errorHandler (validationError "Person validation failed" (validationErrors "Al" "12-345678")) =
      ⟨400, errorBody
        "Person validation failed: name: Name must be at least 3 characters long"⟩ ∧
    errorHandler (validationError "Person validation failed" (validationErrors "Alice" "12-3456")) =
      ⟨400, errorBody ("Person validation failed: number: 12-3456 is not a valid phone number!" ++
        " Format: XX-XXXXXXX or XXX-XXXXXXX")⟩ ∧
    errorHandler (validationError "Person validation failed" (validationErrors "Al" "12-345678")) ≠
      errorHandler (validationError "Person validation failed" (validationErrors "Alice" "12-3456")) := by
  decide

/-- C10, amended: the middleware answers a CastError of kind ObjectId with 400
"Malformatted ID" and every other error that is not a ValidationError with 500
"Server error", whatever the error's message, so two such errors with the same
name and kind get the same status and body; a ValidationError gets status 400
with its own message as the error text. -/
theorem errorHandler_normalizes_other_errors :
    (∀ e : JSError, e.name = "CastError" → e.kind = some "ObjectId" →
      errorHandler e = ⟨400, errorBody "Malformatted ID"⟩) ∧
    (∀ e : JSError, ¬ (e.name = "CastError" ∧ e.kind = some "ObjectId") →
      e.name ≠ "ValidationError" →
      errorHandler e = ⟨500, errorBody "Server error"⟩) ∧
    (∀ e₁ e₂ : JSError, e₁.name = e₂.name → e₁.kind = e₂.kind →
      e₁.name ≠ "ValidationError" → errorHandler e₁ = errorHandler e₂) ∧
    (∀ e : JSError, e.name = "ValidationError" →
      errorHandler e = ⟨400, errorBody e.message⟩) := by
  refine ⟨?_, ?_, ?_, ?_⟩
  · intro e hn hk
    simp only [errorHandler, if_pos (And.intro hn hk)]
  · intro e hc hv
    simp only [errorHandler, if_neg hc, if_neg hv]
  · intro e₁ e₂ hn hk hv
    have hv₂ : e₂.name ≠ "ValidationError" := hn ▸ hv
    simp only [errorHandler, hn, hk, if_neg hv₂]
  · intro e hv
    have hc : ¬ (e.name = "CastError" ∧ e.kind = some "ObjectId") := by
      rintro ⟨h, _⟩
      rw [hv] at h
      exact absurd h (by decide)
    simp only [errorHandler, if_neg hc, if_pos hv]

theorem errorHandler_normalizes_other_errors_witness :
    errorHandler (castError "xyz") = ⟨400, errorBody "Malformatted ID"⟩ ∧
    errorHandler (duplicateKeyError (ObjectId.ofNat 1)) = ⟨500, errorBody "Server error"⟩ ∧
    errorHandler (duplicateKeyError (ObjectId.ofNat 1)) =
      errorHandler (duplicateKeyError (ObjectId.ofNat 2)) ∧
    errorHandler (validationError "Validation failed" (updateValidationErrors "Al" "12-3456")) =
      ⟨400, errorBody
        (validationError "Validation failed" (updateValidationErrors "Al" "12-3456")).message⟩ :=
  ⟨errorHandler_normalizes_other_errors.1 (castError "xyz") rfl rfl,
    errorHandler_normalizes_other_errors.2.1 (duplicateKeyError (ObjectId.ofNat 1))
      (by decide) (by decide),
    errorHandler_normalizes_other_errors.2.2.1 _ _ rfl rfl (by decide),
    errorHandler_normalizes_other_errors.2.2.2 _ rfl⟩

/-! ## Validation -/

theorem utf16Units_pos (c : Char) : 0 < utf16Units c := by
  unfold utf16Units
  split <;> omega

theorem jsLength_eq_zero_iff (s : String) : jsLength s = 0 ↔ s = "" := by
  constructor
  · intro h
    have hl : s.toList = [] := by
      cases hs : s.toList with
      | nil => rfl
      | cons c cs =>
        have hpos := utf16Units_pos c
        simp only [jsLength, hs, jsLengthChars] at h
        omega
    exact String.ext hl
  · rintro rfl
    rfl

theorem checkRequired_of_ne (s : String) (h : s ≠ "") : checkRequired s = true := by
  simp [checkRequired, jsLength_eq_zero_iff, h]

theorem validateName_short (name : String) (h : name ≠ "") (hs : jsLength name < 3) :
    validateName name = some "Name must be at least 3 characters long" := by
  simp [validateName, checkRequired_of_ne name h, hs]

theorem validateName_valid (name : String) (h : 3 ≤ jsLength name) :
    validateName name = none := by
  have hne : name ≠ "" := by
    intro h0
    rw [(jsLength_eq_zero_iff name).2 h0] at h
    omega
  have hlt : ¬ jsLength name < 3 := by omega
  simp [validateName, checkRequired_of_ne name hne, hlt]

theorem validateNumber_invalid (number : String) (h : number ≠ "")
    (hv : phoneValidator number = false) :
    validateNumber number = some (phoneMessage number) := by
  simp [validateNumber, checkRequired_of_ne number h, hv]

theorem ne_empty_of_phoneValidator (number : String) (h : phoneValidator number = true) :
    number ≠ "" := by
  rintro rfl
  exact absurd h (by decide)

theorem validateNumber_valid (number : String) (h : phoneValidator number = true) :
    validateNumber number = none := by
  simp [validateNumber, checkRequired_of_ne number (ne_empty_of_phoneValidator number h), h]

/-- A candidate that breaks a rule of the schema has validation errors. -/
theorem validationErrors_ne_nil (name number : String) (hname : name ≠ "")
    (hnumber : number ≠ "")
    (h : jsLength name < 3 ∨ phoneValidator number = false) :
    validationErrors name number ≠ [] := by
  rcases h with h | h
  · simp [validationErrors, validateName_short name hname h]
  · simp [validationErrors, validateNumber_invalid number hnumber h]

/-- A candidate that satisfies the schema has no validation error. -/
theorem validationErrors_valid (name number : String) (hname : 3 ≤ jsLength name)
    (hnumber : phoneValidator number = true) :
    validationErrors name number = [] := by
  simp [validationErrors, validateName_valid name hname, validateNumber_valid number hnumber]

theorem updateValidationErrors_ne_nil (name number : String) (hname : name ≠ "")
    (hnumber : number ≠ "")
    (h : jsLength name < 3 ∨ phoneValidator number = false) :
    updateValidationErrors name number ≠ [] := by
  rcases h with h | h
  · simp [updateValidationErrors, validateName_short name hname h]
  · simp [updateValidationErrors, validateNumber_invalid number hnumber h]

theorem updateValidationErrors_valid (name number : String) (hname : 3 ≤ jsLength name)
    (hnumber : phoneValidator number = true) :
    updateValidationErrors name number = [] := by
  simp [updateValidationErrors, validateName_valid name hname,
    validateNumber_valid number hnumber]

/-- A candidate without validation errors has a name of at least 3 characters. -/
theorem name_valid_of_validationErrors (name number : String)
    (h : validationErrors name number = []) : 3 ≤ jsLength name := by
  by_contra hlt
  have hshort : jsLength name < 3 := by omega
  cases hv : validateName name with
  | some m => simp [validationErrors, hv] at h
  | none =>
    unfold validateName at hv
    split at hv
    · cases hv
    · cases hv

theorem name_valid_of_updateValidationErrors (name number : String)
    (h : updateValidationErrors name number = []) : 3 ≤ jsLength name := by
  by_contra hlt
  have hshort : jsLength name < 3 := by omega
  cases hv : validateName name with
  | some m => simp [updateValidationErrors, hv] at h
  | none =>
    unfold validateName at hv
    split at hv
    · cases hv
    · cases hv

theorem errorHandler_validationError (title : String) (errs : List (String × String)) :
    errorHandler (validationError title errs) =
      ⟨400, errorBody (validationError title errs).message⟩ := by
  rfl

/-! ## Queries -/

theorem findOneByName_eq_none (store : Store) (name : String)
    (h : ∀ d ∈ store, d.name ≠ name) : findOneByName store name = none := by
  simp only [findOneByName, List.find?_eq_none, decide_eq_true_eq]
  exact h

theorem findOneByName_isSome (store : Store) (name : String)
    (h : ∃ d ∈ store, d.name = name) : ∃ d, findOneByName store name = some d := by
  cases hf : findOneByName store name with
  | some d => exact ⟨d, rfl⟩
  | none =>
    obtain ⟨d, hd, hn⟩ := h
    simp only [findOneByName, List.find?_eq_none, decide_eq_true_eq] at hf
    exact absurd hn (hf d hd)

theorem findById_eq_none (store : Store) (oid : ObjectId)
    (h : ∀ d ∈ store, d._id ≠ oid) : findById store oid = none := by
  simp only [findById, List.find?_eq_none, decide_eq_true_eq]
  exact h

theorem findById_some (store : Store) (oid : ObjectId) (d : PersonDoc)
    (h : findById store oid = some d) : d ∈ store ∧ d._id = oid := by
  refine ⟨List.mem_of_find?_eq_some h, ?_⟩
  simpa using List.find?_some h

/-! ## Create -/

theorem postPerson_missing (store : Store) (name number : Option String) (fresh : ObjectId)
    (h : name = none ∨ name = some "" ∨ number = none ∨ number = some "") :
    postPerson store name number fresh =
      (.sent ⟨400, errorBody "Name and number are required"⟩, store) := by
  unfold postPerson
  rcases name with _ | n <;> rcases number with _ | m <;> try rfl
  have hor : n = "" ∨ m = "" := by
    rcases h with h | h | h | h
    · cases h
    · exact Or.inl (Option.some.inj h)
    · cases h
    · exact Or.inr (Option.some.inj h)
  simp only [if_pos hor]

theorem postPerson_duplicate (store : Store) (name number : String) (fresh : ObjectId)
    (hname : name ≠ "") (hnumber : number ≠ "") (hdup : ∃ d ∈ store, d.name = name) :
    postPerson store (some name) (some number) fresh =
      (.sent ⟨409, errorBody "Name already exists"⟩, store) := by
  obtain ⟨d, hd⟩ := findOneByName_isSome store name hdup
  have hor : ¬ (name = "" ∨ number = "") := by
    rintro (h | h)
    · exact hname h
    · exact hnumber h
  simp only [postPerson, if_neg hor, hd]

theorem postPerson_invalid (store : Store) (name number : String) (fresh : ObjectId)
    (hname : name ≠ "") (hnumber : number ≠ "")
    (hbreach : jsLength name < 3 ∨ phoneValidator number = false)
    (hnew : ∀ d ∈ store, d.name ≠ name) :
    postPerson store (some name) (some number) fresh =
      (.next (validationError "Person validation failed" (validationErrors name number)),
        store) := by
  have hor : ¬ (name = "" ∨ number = "") := by
    rintro (h | h)
    · exact hname h
    · exact hnumber h
  simp only [postPerson, if_neg hor, findOneByName_eq_none store name hnew,
    if_pos (validationErrors_ne_nil name number hname hnumber hbreach)]

/-- C2: when a stored record already has the name, a Create with a non-empty
name and a non-empty number answers 409 "Name already exists" and leaves the
collection as it was. -/
theorem create_existing_name_is_duplicate (store : Store) (name number : String)
    (fresh : ObjectId) (hname : name ≠ "") (hnumber : number ≠ "")
    (hdup : ∃ d ∈ store, d.name = name) :
    postPerson store (some name) (some number) fresh =
      (.sent ⟨409, errorBody "Name already exists"⟩, store) :=
  postPerson_duplicate store name number fresh hname hnumber hdup

theorem create_existing_name_is_duplicate_witness :
    postPerson [alice, bobby] (some "Bobby") (some "09-1234567") (ObjectId.ofNat 7) =
      (.sent ⟨409, errorBody "Name already exists"⟩, [alice, bobby]) :=
  create_existing_name_is_duplicate [alice, bobby] "Bobby" "09-1234567" (ObjectId.ofNat 7)
    (by decide) (by decide) ⟨bobby, by decide, rfl⟩

/-- C3, as the code has it: the number "12-3456" breaks the format rule, the
name "Alice" is stored, and Create answers 409 "Name already exists": the
handler passes no error to `next`, so the outcome is not ValidationError. -/
theorem create_checks_name_before_validation :
    phoneValidator "12-3456" = false ∧
    validationErrors "Alice" "12-3456" ≠ [] ∧
    postPerson [alice] (some "Alice") (some "12-3456") (ObjectId.ofNat 7) =
      (.sent ⟨409, errorBody "Name already exists"⟩, [alice]) ∧
    (∀ err : JSError,
      (postPerson [alice] (some "Alice") (some "12-3456") (ObjectId.ofNat 7)).1 ≠ .next err) := by
  refine ⟨by decide, by decide, by decide, ?_⟩
  intro err h
  have hs : (postPerson [alice] (some "Alice") (some "12-3456") (ObjectId.ofNat 7)).1 =
      .sent ⟨409, errorBody "Name already exists"⟩ := by decide
  rw [hs] at h
  cases h

/-- C3, amended: Create checks for a missing field, then for a stored record of
the same name, then the schema.  A missing or empty field answers 400 "Name and
number are required".  With both fields non-empty and a rule of the schema
broken, Create passes a ValidationError to `next` (response 400 with the error's
message) when no stored record has the name, and answers 409 "Name already
exists" when one has; the collection is unchanged in each case. -/
theorem create_check_order (store : Store) (fresh : ObjectId) :
    (∀ name number : Option String,
      name = none ∨ name = some "" ∨ number = none ∨ number = some "" →
      postPerson store name number fresh =
        (.sent ⟨400, errorBody "Name and number are required"⟩, store)) ∧
    (∀ name number : String, name ≠ "" → number ≠ "" →
      jsLength name < 3 ∨ phoneValidator number = false →
      ((∀ d ∈ store, d.name ≠ name) →
        ∃ err : JSError,
          postPerson store (some name) (some number) fresh = (.next err, store) ∧
          err.name = "ValidationError" ∧
          respond (.next err) = ⟨400, errorBody err.message⟩) ∧
      ((∃ d ∈ store, d.name = name) →
        postPerson store (some name) (some number) fresh =
          (.sent ⟨409, errorBody "Name already exists"⟩, store))) := by
  refine ⟨fun name number h => postPerson_missing store name number fresh h, ?_⟩
  intro name number hname hnumber hbreach
  refine ⟨fun hnew => ⟨_, postPerson_invalid store name number fresh hname hnumber hbreach hnew,
    rfl, rfl⟩, fun hdup => postPerson_duplicate store name number fresh hname hnumber hdup⟩

theorem create_check_order_witness :
    (∃ err : JSError,
      postPerson [alice] (some "Bobby") (some "12-3456") (ObjectId.ofNat 7) =
        (.next err, [alice]) ∧
      err.name = "ValidationError" ∧
      respond (.next err) = ⟨400, errorBody err.message⟩) ∧
    postPerson [alice] none (some "12-3456") (ObjectId.ofNat 7) =
      (.sent ⟨400, errorBody "Name and number are required"⟩, [alice]) :=
  ⟨((create_check_order [alice] (ObjectId.ofNat 7)).2 "Bobby" "12-3456" (by decide) (by decide)
      (Or.inr (by decide))).1 (by decide),
    (create_check_order [alice] (ObjectId.ofNat 7)).1 none (some "12-3456") (Or.inl rfl)⟩

/-! ## Update -/

theorem putPerson_missing (D : Driver) (store : Store) (id : String)
    (name number : Option String)
    (h : name = none ∨ name = some "" ∨ number = none ∨ number = some "") :
    putPerson D store id name number =
      (.sent ⟨400, errorBody "Name and number are required"⟩, store) := by
  unfold putPerson
  rcases name with _ | n <;> rcases number with _ | m <;> try rfl
  have hor : n = "" ∨ m = "" := by
    rcases h with h | h | h | h
    · cases h
    · exact Or.inl (Option.some.inj h)
    · cases h
    · exact Or.inr (Option.some.inj h)
  simp only [if_pos hor]

theorem putPerson_invalid (D : Driver) (store : Store) (id : String) (oid : ObjectId)
    (name number : String) (hid : D.castObjectId id = some oid)
    (hname : name ≠ "") (hnumber : number ≠ "")
    (hbreach : jsLength name < 3 ∨ phoneValidator number = false) :
    putPerson D store id (some name) (some number) =
      (.next (validationError "Validation failed" (updateValidationErrors name number)),
        store) := by
  have hor : ¬ (name = "" ∨ number = "") := by
    rintro (h | h)
    · exact hname h
    · exact hnumber h
  simp only [putPerson, if_neg hor, hid,
    if_pos (updateValidationErrors_ne_nil name number hname hnumber hbreach)]

theorem putPerson_malformed (D : Driver) (store : Store) (id : String)
    (name number : String) (hid : D.castObjectId id = none)
    (hname : name ≠ "") (hnumber : number ≠ "") :
    putPerson D store id (some name) (some number) = (.next (castError id), store) := by
  have hor : ¬ (name = "" ∨ number = "") := by
    rintro (h | h)
    · exact hname h
    · exact hnumber h
  simp only [putPerson, if_neg hor, hid]

/-- C4, as the code has it: the name "Al" has 2 characters and the route
parameter "xyz" is no identifier; Update casts the identifier before it runs
the validators, so it passes a CastError to `next` and the response is 400
"Malformatted ID", not a ValidationError. -/
theorem update_short_name_malformed_id :
    jsLength "Al" = 2 ∧
    validateName "Al" = some "Name must be at least 3 characters long" ∧
    putPerson hexDriver [alice] "xyz" (some "Al") (some "123-4567890") =
      (.next (castError "xyz"), [alice]) ∧
    (castError "xyz").name ≠ "ValidationError" ∧
    respond (putPerson hexDriver [alice] "xyz" (some "Al") (some "123-4567890")).1 =
      ⟨400, errorBody "Malformatted ID"⟩ := by
  decide

/-- C4, amended: in a collection whose names have at least 3 characters, for a
present name shorter than 3 characters and a present number, valid or not,
Create passes a ValidationError to `next` (response 400) and creates no record;
Update passes a ValidationError to `next` (response 400) when the route
parameter is an identifier, and a CastError (response 400 "Malformatted ID")
when it is not, and changes no record in either case. -/
theorem short_name_is_validation_error (D : Driver) (store : Store) (id : String)
    (name number : String) (fresh : ObjectId) (hstore : ValidNames store)
    (hname : name ≠ "") (hshort : jsLength name < 3) (hnumber : number ≠ "") :
    (∃ err : JSError,
      postPerson store (some name) (some number) fresh = (.next err, store) ∧
      err.name = "ValidationError" ∧
      respond (.next err) = ⟨400, errorBody err.message⟩) ∧
    (∀ oid : ObjectId, D.castObjectId id = some oid →
      ∃ err : JSError,
        putPerson D store id (some name) (some number) = (.next err, store) ∧
        err.name = "ValidationError" ∧
        respond (.next err) = ⟨400, errorBody err.message⟩) ∧
    (D.castObjectId id = none →
      putPerson D store id (some name) (some number) = (.next (castError id), store) ∧
      respond (.next (castError id)) = ⟨400, errorBody "Malformatted ID"⟩) := by
  have hnew : ∀ d ∈ store, d.name ≠ name := by
    intro d hd hdn
    have h3 := hstore d hd
    rw [hdn] at h3
    omega
  exact ⟨⟨_, postPerson_invalid store name number fresh hname hnumber (Or.inl hshort) hnew,
      rfl, rfl⟩,
    fun oid hid => ⟨_, putPerson_invalid D store id oid name number hid hname hnumber
      (Or.inl hshort), rfl, rfl⟩,
    fun hid => ⟨putPerson_malformed D store id name number hid hname hnumber, rfl⟩⟩

theorem short_name_is_validation_error_witness :
    ValidNames [alice] ∧ "Al" ≠ "" ∧ jsLength "Al" < 3 ∧ "123-4567890" ≠ "" ∧
    (∃ err : JSError,
      postPerson [alice] (some "Al") (some "123-4567890") (ObjectId.ofNat 7) =
        (.next err, [alice]) ∧
      err.name = "ValidationError" ∧
      respond (.next err) = ⟨400, errorBody err.message⟩) ∧
    (∃ err : JSError,
      putPerson hexDriver [alice] alice._id.toHexString (some "Al") (some "123-4567890") =
        (.next err, [alice]) ∧
      err.name = "ValidationError" ∧
      respond (.next err) = ⟨400, errorBody err.message⟩) :=
  ⟨by decide, by decide, by decide, by decide,
    (short_name_is_validation_error hexDriver [alice] alice._id.toHexString
      "Al" "123-4567890" (ObjectId.ofNat 7) (by decide) (by decide) (by decide)
      (by decide)).1,
    (short_name_is_validation_error hexDriver [alice] alice._id.toHexString
      "Al" "123-4567890" (ObjectId.ofNat 7) (by decide) (by decide) (by decide)
      (by decide)).2.1 alice._id (by decide)⟩

/-! ## Round trip, update and delete -/

theorem jsonReply_eq (status : Nat) (doc : PersonDoc) :
    jsonReply status doc =
      .sent ⟨status, .json [("name", .str doc.name), ("number", .str doc.number),
        ("id", .str doc._id.toHexString)]⟩ := by
  rfl

/-- A Create that answers 201 has stored one new document under the generated
identifier, which no stored document had, and has sent its wire form. -/
theorem postPerson_created (store : Store) (name number : Option String) (fresh : ObjectId)
    (res : Response) (store' : Store)
    (h : postPerson store name number fresh = (.sent res, store')) (hok : res.status = 201) :
    ∃ n m : String, name = some n ∧ number = some m ∧
      (∀ d ∈ store, d._id ≠ fresh) ∧
      res = ⟨201, .json [("name", .str n), ("number", .str m),
        ("id", .str fresh.toHexString)]⟩ ∧
      store' = store ++ [{ _id := fresh, name := n, number := m, __v := 0 }] := by
  have hmiss : ∀ s : Store,
      ((.sent ⟨400, errorBody "Name and number are required"⟩, s) : Reply × Store) =
        (.sent res, store') → False := by
    intro s hs
    simp only [Prod.mk.injEq, Reply.sent.injEq] at hs
    rw [← hs.1] at hok
    exact absurd hok (by decide)
  rcases name with _ | n
  · exact (hmiss store (by simpa [postPerson] using h)).elim
  rcases number with _ | m
  · exact (hmiss store (by simpa [postPerson] using h)).elim
  refine ⟨n, m, rfl, rfl, ?_⟩
  simp only [postPerson] at h
  by_cases hor : n = "" ∨ m = ""
  · rw [if_pos hor] at h
    exact (hmiss store h).elim
  rw [if_neg hor] at h
  cases hf : findOneByName store n with
  | some d =>
    rw [hf] at h
    simp only [Prod.mk.injEq, Reply.sent.injEq] at h
    rw [← h.1] at hok
    exact absurd hok (by decide)
  | none =>
    rw [hf] at h
    simp only at h
    by_cases herr : validationErrors n m ≠ []
    · rw [if_pos herr] at h
      simp at h
    rw [if_neg herr] at h
    by_cases hany : (store.any (fun d => d._id = fresh)) = true
    · rw [if_pos hany] at h
      simp at h
    rw [if_neg hany, jsonReply_eq] at h
    simp only [Prod.mk.injEq, Reply.sent.injEq] at h
    refine ⟨?_, h.1.symm, h.2.symm⟩
    intro d hd hid
    apply hany
    rw [List.any_eq_true]
    exact ⟨d, hd, by simpa using hid⟩

/-- C5: when Create answers 201, the wire record it returns holds the name and
number passed to Create and an `id` for which an immediately following
GetByIdentifier answers 200 with the very same record. -/
theorem create_get_round_trip (D : Driver) (store : Store) (name number : Option String)
    (fresh : ObjectId) (res : Response) (store' : Store)
    (h : postPerson store name number fresh = (.sent res, store')) (hok : res.status = 201) :
    ∃ (o : JSObject) (id n m : String),
      res.body = .json o ∧ name = some n ∧ number = some m ∧
      o.get "id" = some (.str id) ∧
      o.get "name" = some (.str n) ∧ o.get "number" = some (.str m) ∧
      getPerson D store' id = (.sent ⟨200, .json o⟩, store') := by
  obtain ⟨n, m, hn, hm, hfresh, hres, hstore⟩ :=
    postPerson_created store name number fresh res store' h hok
  refine ⟨[("name", .str n), ("number", .str m), ("id", .str fresh.toHexString)],
    fresh.toHexString, n, m, by rw [hres], hn, hm, rfl, rfl, rfl, ?_⟩
  have hfind : findById store' fresh =
      some { _id := fresh, name := n, number := m, __v := 0 } := by
    rw [hstore, findById, List.find?_append, ← findById, findById_eq_none store fresh hfresh]
    simp
  simp only [getPerson, D.cast_toHexString, hfind, jsonReply_eq]

theorem create_get_round_trip_witness :
    ∃ (o : JSObject) (id n m : String),
      (⟨201, .json [("name", .str "Bobby"), ("number", .str "040-1234567"),
        ("id", .str "000000000000000000000002")]⟩ : Response).body = .json o ∧
      some "Bobby" = some n ∧ some "040-1234567" = some m ∧
      o.get "id" = some (.str id) ∧
      o.get "name" = some (.str n) ∧ o.get "number" = some (.str m) ∧
      getPerson hexDriver [alice, bobby] id = (.sent ⟨200, .json o⟩, [alice, bobby]) :=
  create_get_round_trip hexDriver [alice] (some "Bobby") (some "040-1234567")
    (ObjectId.ofNat 2) _ [alice, bobby] (by decide) (by decide)

theorem deleteById_eq_filter (oid : ObjectId) (store : Store) (hu : UniqueIds store) :
    deleteById oid store = store.filter (fun d => d._id ≠ oid) := by
  induction store with
  | nil => rfl
  | cons d ds ih =>
    have hnd : d._id ∉ ds.map (fun x => x._id) ∧ UniqueIds ds := by
      simpa [UniqueIds] using hu
    by_cases hd : d._id = oid
    · have hall : ∀ x ∈ ds, x._id ≠ oid := by
        intro x hx hxo
        exact hnd.1 (List.mem_map.2 ⟨x, hx, hxo.trans hd.symm⟩)
      have hfilter : ds.filter (fun x => x._id ≠ oid) = ds :=
        List.filter_eq_self.2 (fun x hx => by simpa using hall x hx)
      rw [deleteById, if_pos hd, List.filter_cons_of_neg (by simpa using hd), hfilter]
    · rw [deleteById, if_neg hd, List.filter_cons_of_pos (by simpa using hd), ih hnd.2]

theorem findById_filter_ne (oid : ObjectId) (store : Store) :
    findById (store.filter (fun d => d._id ≠ oid)) oid = none := by
  apply findById_eq_none
  intro d hd
  simpa using (List.mem_filter.1 hd).2

/-- C6: in a collection with unique identifiers, when Delete answers 204 the
collection loses exactly the record with that identifier, and an immediately
following GetByIdentifier and a second Delete both answer 404 "Person not
found" and leave the collection as it is. -/
theorem delete_finality (D : Driver) (store : Store) (id : String) (res : Response)
    (store' : Store) (hu : UniqueIds store)
    (h : deletePerson D store id = (.sent res, store')) (hok : res.status = 204) :
    ∃ oid : ObjectId, D.castObjectId id = some oid ∧
      (∃ d ∈ store, d._id = oid) ∧
      res = ⟨204, .empty⟩ ∧
      store' = store.filter (fun d => d._id ≠ oid) ∧
      getPerson D store' id = (.sent ⟨404, errorBody "Person not found"⟩, store') ∧
      deletePerson D store' id = (.sent ⟨404, errorBody "Person not found"⟩, store') := by
  cases hc : D.castObjectId id with
  | none =>
    simp [deletePerson, hc] at h
  | some oid =>
    cases hf : findById store oid with
    | none =>
      simp only [deletePerson, hc, hf, Prod.mk.injEq, Reply.sent.injEq] at h
      rw [← h.1] at hok
      exact absurd hok (by decide)
    | some d =>
      simp only [deletePerson, hc, hf, Prod.mk.injEq, Reply.sent.injEq] at h
      have hs : store' = store.filter (fun d => d._id ≠ oid) := by
        rw [← h.2, deleteById_eq_filter oid store hu]
      have hnone : findById store' oid = none := by
        rw [hs]
        exact findById_filter_ne oid store
      refine ⟨oid, rfl, ⟨d, findById_some store oid d hf⟩, h.1.symm, hs, ?_, ?_⟩
      · simp only [getPerson, hc, hnone]
      · simp only [deletePerson, hc, hnone]

theorem delete_finality_witness :
    ∃ oid : ObjectId, hexDriver.castObjectId "000000000000000000000001" = some oid ∧
      (∃ d ∈ [alice, bobby], d._id = oid) ∧
      (⟨204, .empty⟩ : Response) = ⟨204, .empty⟩ ∧
      [bobby] = [alice, bobby].filter (fun d => d._id ≠ oid) ∧
      getPerson hexDriver [bobby] "000000000000000000000001" =
        (.sent ⟨404, errorBody "Person not found"⟩, [bobby]) ∧
      deletePerson hexDriver [bobby] "000000000000000000000001" =
        (.sent ⟨404, errorBody "Person not found"⟩, [bobby]) :=
  delete_finality hexDriver [alice, bobby] "000000000000000000000001" ⟨204, .empty⟩ [bobby]
    (by decide) (by decide) (by decide)

theorem updateById_split (oid : ObjectId) (name number : String) (store : Store)
    (person : PersonDoc) (h : findById store oid = some person) :
    ∃ pre post : Store, store = pre ++ person :: post ∧ (∀ d ∈ pre, d._id ≠ oid) ∧
      updateById oid name number store =
        pre ++ { person with name := name, number := number } :: post := by
  induction store with
  | nil => simp [findById] at h
  | cons d ds ih =>
    by_cases hd : d._id = oid
    · have hp : d = person := by
        simpa [findById, List.find?_cons, hd] using h
      subst hp
      exact ⟨[], ds, rfl, by simp, by rw [updateById, if_pos hd]; rfl⟩
    · have hrest : findById ds oid = some person := by
        simpa [findById, List.find?_cons, hd] using h
      obtain ⟨pre, post, hs, hpre, hup⟩ := ih hrest
      refine ⟨d :: pre, post, by rw [hs]; rfl, ?_, by rw [updateById, if_neg hd, hup]; rfl⟩
      intro x hx
      rcases List.mem_cons.1 hx with rfl | hx
      · exact hd
      · exact hpre x hx

/-- C7: for an identifier and a valid name and number, Update of a stored
identifier answers 200 with the wire form of the updated record; the record of
that identifier keeps its `_id` and gets the given name and number, and the
records before and after it are as they were (with unique identifiers, none of
them has that identifier).  Update of an identifier no record has answers 404
"Person not found" and leaves the collection as it was. -/
theorem update_replaces_name_and_number (D : Driver) (store : Store) (id : String)
    (oid : ObjectId) (name number : String) (hid : D.castObjectId id = some oid)
    (hname : 3 ≤ jsLength name) (hnumber : phoneValidator number = true) :
    ((∃ d ∈ store, d._id = oid) →
      ∃ (pre : Store) (person : PersonDoc) (post : Store),
        store = pre ++ person :: post ∧ person._id = oid ∧
        (∀ d ∈ pre, d._id ≠ oid) ∧ (UniqueIds store → ∀ d ∈ post, d._id ≠ oid) ∧
        putPerson D store id (some name) (some number) =
          (.sent ⟨200, .json [("name", .str name), ("number", .str number),
              ("id", .str oid.toHexString)]⟩,
            pre ++ { person with name := name, number := number } :: post)) ∧
    ((∀ d ∈ store, d._id ≠ oid) →
      putPerson D store id (some name) (some number) =
        (.sent ⟨404, errorBody "Person not found"⟩, store)) := by
  have hor : ¬ (name = "" ∨ number = "") := by
    rintro (h | h)
    · rw [(jsLength_eq_zero_iff name).2 h] at hname
      omega
    · exact ne_empty_of_phoneValidator number hnumber h
  have herr : ¬ (updateValidationErrors name number ≠ []) :=
    fun hne => hne (updateValidationErrors_valid name number hname hnumber)
  constructor
  · rintro ⟨d, hd, hdo⟩
    cases hf : findById store oid with
    | none =>
      simp only [findById, List.find?_eq_none, decide_eq_true_eq] at hf
      exact absurd hdo (hf d hd)
    | some person =>
      obtain ⟨pre, post, hs, hpre, hup⟩ := updateById_split oid name number store person hf
      have hpo : person._id = oid := (findById_some store oid person hf).2
      refine ⟨pre, person, post, hs, hpo, hpre, ?_, ?_⟩
      · intro hu x hx hxo
        have hnd : ((pre.map (fun d => d._id)) ++
            person._id :: post.map (fun d => d._id)).Nodup := by
          simpa [UniqueIds, hs] using hu
        have hnd' := (List.nodup_cons.1 (List.nodup_append.1 hnd).2.1).1
        exact hnd' (List.mem_map.2 ⟨x, hx, hxo.trans hpo.symm⟩)
      · simp only [putPerson, if_neg hor, hid, if_neg herr, hf, hup, jsonReply_eq, hpo]
  · intro hnone
    simp only [putPerson, if_neg hor, hid, if_neg herr, findById_eq_none store oid hnone]

theorem update_replaces_name_and_number_witness :
    (∃ (pre : Store) (person : PersonDoc) (post : Store),
      [alice, bobby] = pre ++ person :: post ∧ person._id = ObjectId.ofNat 1 ∧
      (∀ d ∈ pre, d._id ≠ ObjectId.ofNat 1) ∧
      (UniqueIds [alice, bobby] → ∀ d ∈ post, d._id ≠ ObjectId.ofNat 1) ∧
      putPerson hexDriver [alice, bobby] "000000000000000000000001" (some "Alicia")
          (some "09-1234567") =
        (.sent ⟨200, .json [("name", .str "Alicia"), ("number", .str "09-1234567"),
            ("id", .str (ObjectId.ofNat 1).toHexString)]⟩,
          pre ++ { person with name := "Alicia", number := "09-1234567" } :: post)) ∧
    putPerson hexDriver [alice] "000000000000000000000002" (some "Alicia")
        (some "09-1234567") =
      (.sent ⟨404, errorBody "Person not found"⟩, [alice]) :=
  ⟨(update_replaces_name_and_number hexDriver [alice, bobby] "000000000000000000000001"
      (ObjectId.ofNat 1) "Alicia" "09-1234567" (by decide) (by decide) (by decide)).1
      ⟨alice, by decide, rfl⟩,
    (update_replaces_name_and_number hexDriver [alice] "000000000000000000000002"
      (ObjectId.ofNat 2) "Alicia" "09-1234567" (by decide) (by decide) (by decide)).2
      (by decide)⟩

/-- C9: Update does not check name uniqueness.  In the collection of Alice and
Bobby, whose names and identifiers are distinct, Update of Bobby's identifier
with the valid name "Alice" and a valid number answers 200 and leaves two
different records named "Alice". -/
theorem update_can_duplicate_a_name (D : Driver) :
    ∃ (store : Store) (id name number : String) (res : Response) (store' : Store),
      UniqueNames store ∧ UniqueIds store ∧
      (∃ d ∈ store, D.castObjectId id = some d._id) ∧
      3 ≤ jsLength name ∧ phoneValidator number = true ∧
      putPerson D store id (some name) (some number) = (.sent res, store') ∧
      res.status = 200 ∧
      (∃ d₁ ∈ store', ∃ d₂ ∈ store', d₁ ≠ d₂ ∧ d₁.name = d₂.name) ∧
      ¬ UniqueNames store' := by
  refine ⟨[alice, bobby], bobby._id.toHexString, "Alice", "040-1234567",
    ⟨200, .json [("name", .str "Alice"), ("number", .str "040-1234567"),
      ("id", .str bobby._id.toHexString)]⟩,
    [alice, { bobby with name := "Alice" }], by decide, by decide,
    ⟨bobby, by decide, D.cast_toHexString _⟩, by decide, by decide, ?_, rfl,
    ⟨alice, by decide, { bobby with name := "Alice" }, by decide, by decide, rfl⟩, by decide⟩
  simp only [putPerson, D.cast_toHexString]
  rfl

/-! ## The storage invariant -/

theorem updateById_ids (oid : ObjectId) (name number : String) (store : Store) :
    (updateById oid name number store).map (fun d => d._id) =
      store.map (fun d => d._id) := by
  induction store with
  | nil => rfl
  | cons d ds ih =>
    by_cases hd : d._id = oid
    · simp [updateById, hd]
    · simp [updateById, hd, ih]

theorem deleteById_sublist (oid : ObjectId) (store : Store) :
    (deleteById oid store).Sublist store := by
  induction store with
  | nil => exact List.Sublist.refl []
  | cons d ds ih =>
    by_cases hd : d._id = oid
    · rw [deleteById, if_pos hd]
      exact List.sublist_cons_self d ds
    · rw [deleteById, if_neg hd]
      exact ih.cons₂ d

theorem updateById_mem (oid : ObjectId) (name number : String) (store : Store)
    (x : PersonDoc) (hx : x ∈ updateById oid name number store) :
    x ∈ store ∨ x.name = name := by
  induction store with
  | nil => simp [updateById] at hx
  | cons d ds ih =>
    by_cases hd : d._id = oid
    · rw [updateById, if_pos hd] at hx
      rcases List.mem_cons.1 hx with rfl | hx
      · exact Or.inr rfl
      · exact Or.inl (List.mem_cons_of_mem d hx)
    · rw [updateById, if_neg hd] at hx
      rcases List.mem_cons.1 hx with rfl | hx
      · exact Or.inl (List.mem_cons_self _ ds)
      · rcases ih hx with h | h
        · exact Or.inl (List.mem_cons_of_mem d h)
        · exact Or.inr h

/-- Every handler keeps the names of the collection at 3 characters or more. -/
theorem handlers_keep_validNames (D : Driver) (store : Store) (hv : ValidNames store) :
    (∀ id, ValidNames (getPerson D store id).2) ∧
    (∀ name number fresh, ValidNames (postPerson store name number fresh).2) ∧
    (∀ id name number, ValidNames (putPerson D store id name number).2) ∧
    (∀ id, ValidNames (deletePerson D store id).2) := by
  refine ⟨?_, ?_, ?_, ?_⟩
  · intro id
    unfold getPerson
    split
    · exact hv
    · split <;> exact hv
  · intro name number fresh
    unfold postPerson
    split
    · split
      · exact hv
      · split
        · exact hv
        · simp only
          split
          · exact hv
          · split
            · exact hv
            · rename_i n m _ _ _ herr _
              have hn : 3 ≤ jsLength n :=
                name_valid_of_validationErrors n m (by simpa using herr)
              intro d hd
              rcases List.mem_append.1 hd with hd | hd
              · exact hv d hd
              · rw [List.mem_singleton.1 hd]
                exact hn
    · exact hv
  · intro id name number
    unfold putPerson
    split
    · split
      · exact hv
      · split
        · exact hv
        · simp only
          split
          · exact hv
          · split
            · exact hv
            · rename_i n m _ _ _ _ herr _ _ _
              have hn : 3 ≤ jsLength n :=
                name_valid_of_updateValidationErrors n m (by simpa using herr)
              intro d hd
              rcases updateById_mem _ _ _ store d hd with h | h
              · exact hv d h
              · rw [h]
                exact hn
    · exact hv
  · intro id
    unfold deletePerson
    split
    · exact hv
    · split
      · exact hv
      · intro d hd
        exact hv d ((deleteById_sublist _ store).subset hd)

/-- Every handler keeps the identifiers of the collection unique. -/
theorem handlers_keep_uniqueIds (D : Driver) (store : Store) (hu : UniqueIds store) :
    (∀ id, UniqueIds (getPerson D store id).2) ∧
    (∀ name number fresh, UniqueIds (postPerson store name number fresh).2) ∧
    (∀ id name number, UniqueIds (putPerson D store id name number).2) ∧
    (∀ id, UniqueIds (deletePerson D store id).2) := by
  refine ⟨?_, ?_, ?_, ?_⟩
  · intro id
    unfold getPerson
    split
    · exact hu
    · split <;> exact hu
  · intro name number fresh
    unfold postPerson
    split
    · split
      · exact hu
      · split
        · exact hu
        · simp only
          split
          · exact hu
          · split
            · exact hu
            · rename_i hany
              have hfresh : fresh ∉ store.map (fun d => d._id) := by
                intro hmem
                obtain ⟨d, hd, hdf⟩ := List.mem_map.1 hmem
                exact hany (List.any_eq_true.2 ⟨d, hd, by simpa using hdf⟩)
              have hdis : ∀ a ∈ store.map (fun d => d._id), a ≠ fresh := by
                intro a ha hf
                exact hfresh (hf ▸ ha)
              simpa [UniqueIds, List.nodup_append] using And.intro hu hdis
    · exact hu
  · intro id name number
    unfold putPerson
    split
    · split
      · exact hu
      · split
        · exact hu
        · simp only
          split
          · exact hu
          · split
            · exact hu
            · simpa [UniqueIds, updateById_ids] using hu
    · exact hu
  · intro id
    unfold deletePerson
    split
    · exact hu
    · split
      · exact hu
      · exact List.Nodup.sublist ((deleteById_sublist _ store).map _) hu

end Phonebook
